import Mathlib

/-!
Verification model of the Decertify session-coordination engine.

The definitions below are a shallow embedding of
`src/app/coordinator/coordinator.py` (the coordinator's validation and
dispatch phase, the `handle_events` loop with its batching writer, and the
finalization phase) and of `src/app/workers/peer_worker.py` (the peer
command handler and the training routine's observable effects).

JSON payloads are modelled by the inductive `JVal`; MongoDB documents by
explicit `Store` records and a small language of store operations; the
asynchronous event loop by a tick function driven by a list of pull
results and clock readings.
-/

/-- A JSON value, as produced by `json.loads` on a message body.  Arrays and
objects are spelled with their own nil/cons constructors so that equality is
decidable by derivation; `mkArr`/`mkObj` build them from lists. -/
inductive JVal where
  | null
  | bool (b : Bool)
  | num (q : ℚ)
  | str (s : String)
  | arrNil
  | arrCons (hd tl : JVal)
  | objNil
  | objCons (k : String) (v tl : JVal)
deriving DecidableEq, Repr

namespace JVal

/-- Build an object value from a key/value list. -/
def mkObj : List (String × JVal) → JVal
  | [] => .objNil
  | (k, v) :: rest => .objCons k v (mkObj rest)

/-- Build an array value from a list. -/
def mkArr : List JVal → JVal
  | [] => .arrNil
  | v :: rest => .arrCons v (mkArr rest)

/-- Python truthiness of a value: `None`, `False`, `0`, `""`, `[]`, `{}` are falsy. -/
def truthy : JVal → Bool
  | .null => false
  | .bool b => b
  | .num q => decide (q ≠ 0)
  | .str s => decide (s ≠ "")
  | .arrNil => false
  | .arrCons _ _ => true
  | .objNil => false
  | .objCons _ _ _ => true

/-- `d.get(k)` on a dict: the value at the first binding of key `k`, if present
(Python's `None` for an absent key is modelled as `Option.none`).  Non-dicts
have no keys. -/
def get (k : String) : JVal → Option JVal
  | .objCons k' v rest => if k' = k then some v else rest.get k
  | _ => none

/-- `d.get(k, default)`. -/
def getD (v : JVal) (k : String) (dflt : JVal) : JVal :=
  (v.get k).getD dflt

/-- `isinstance(v, dict)`. -/
def isObj : JVal → Bool
  | .objNil => true
  | .objCons _ _ _ => true
  | _ => false

/-- Python truthiness of an optional value (`None` is falsy). -/
def truthyO : Option JVal → Bool
  | none => false
  | some v => v.truthy

end JVal

/-!  ## The durable store (MongoDB documents touched by the coordinator)  -/

/-- One progress record, as assembled by `handle_events` for an EPOCH event:
`{"epoch": event["epoch"], "loss": event["loss"], "accuracy": event["accuracy"],
"timestamp": datetime.utcnow()}`.  Field values are kept as the JSON values
taken from the event; the wall-clock timestamp is abstracted to a `Nat`. -/
structure EpochRec where
  epoch : JVal
  loss : JVal
  accuracy : JVal
  timestamp : Nat
deriving DecidableEq, Repr

/-- One element of the session document's `peers` array. -/
structure PeerDoc where
  uid : String
  status : String
  results : List EpochRec
deriving DecidableEq, Repr

/-- One value of the session document's `final_results` mapping:
`{"hyperparameters": ..., "results": [...]}`. -/
structure FinalEntry where
  hyperparameters : JVal
  results : List EpochRec
deriving DecidableEq, Repr

/-- The parts of the MongoDB state the coordinator reads and writes: the
session document's `peers` array, its session-level `results.<uid>` mirror
map, its completion fields, and the `users` collection's `status` fields. -/
structure Store where
  sessionPeers : List PeerDoc
  mirror : List (JVal × List EpochRec)
  users : List (String × String)
  sessionStatus : String
  completedAt : Option Nat
  coordinatorUid : Option String
  finalResults : List (String × FinalEntry)
deriving DecidableEq, Repr

/-- The store updates issued by the coordinator, one constructor per
`update_one` call shape in `coordinator.py`. -/
inductive StoreOp where
  /-- `$push` to `peers.$[peer].results` with `array_filters=[{"peer.uid": uid}]`:
  appends `batch` to the `results` of every `peers` element whose uid matches. -/
  | pushPeerResults (uid : JVal) (batch : List EpochRec)
  /-- `$push` to `results.<uid>`: appends one record to the session-level
  mirror sequence for `uid`, creating the field if absent. -/
  | mirrorPush (uid : JVal) (rec : EpochRec)
  /-- `$set` of `peers.$.status` to OFFLINE with filter `{"peers.uid": uid}`:
  updates the first matching `peers` element only. -/
  | setPeerOffline (uid : JVal)
  /-- `$set` of `users` document `status` to OFFLINE, by user id. -/
  | setUserOffline (uid : String)
  /-- The single `$set` performed at completion: session `status`,
  `completed_at`, `coordinator_uid` and `final_results` together. -/
  | finalizeSession (t : Nat) (coordUid : String) (fr : List (String × FinalEntry))
deriving DecidableEq, Repr

/-- Append `v` to the list at key `k` of an association list, creating the
key at the end if absent (MongoDB `$push` on a possibly-missing field). -/
def assocPush {α : Type} [DecidableEq α] (k : α) (v : EpochRec) :
    List (α × List EpochRec) → List (α × List EpochRec)
  | [] => [(k, [v])]
  | (k', vs) :: rest =>
    if k' = k then (k', vs ++ [v]) :: rest else (k', vs) :: assocPush k v rest

/-- Set the status of the first `peers` element whose uid equals `uid`
(Mongo positional `$` update); a no-op when none matches. -/
def setFirstOffline (uid : JVal) : List PeerDoc → List PeerDoc
  | [] => []
  | p :: rest =>
    if JVal.str p.uid = uid then { p with status := "OFFLINE" } :: rest
    else p :: setFirstOffline uid rest

/-- Apply one store update. -/
def Store.applyOp (st : Store) : StoreOp → Store
  | .pushPeerResults uid batch =>
    { st with sessionPeers := st.sessionPeers.map fun p =>
        if JVal.str p.uid = uid then { p with results := p.results ++ batch } else p }
  | .mirrorPush uid rec => { st with mirror := assocPush uid rec st.mirror }
  | .setPeerOffline uid => { st with sessionPeers := setFirstOffline uid st.sessionPeers }
  | .setUserOffline uid =>
    { st with users := st.users.map fun (u, s) => if u = uid then (u, "OFFLINE") else (u, s) }
  | .finalizeSession t coordUid fr =>
    { st with sessionStatus := "COMPLETED", completedAt := some t,
              coordinatorUid := some coordUid, finalResults := fr }

/-- Apply a sequence of store updates in order. -/
def Store.applyOps (st : Store) (ops : List StoreOp) : Store :=
  ops.foldl Store.applyOp st

/-!  ## The coordinator's event loop (`handle_events`)  -/

/-- Look up a key in an association list (`peer_buffers[uid]`, partial:
`Option.none` models Python's `KeyError`). -/
def assocGet {α β : Type} [DecidableEq α] (k : α) : List (α × β) → Option β
  | [] => none
  | (k', v) :: rest => if k' = k then some v else assocGet k rest

/-- Replace the value at a key in an association list; a no-op when absent
(the loop only assigns `peer_buffers[uid]` for keys it has just read). -/
def assocSet {α β : Type} [DecidableEq α] (k : α) (v : β) : List (α × β) → List (α × β)
  | [] => []
  | (k', v') :: rest =>
    if k' = k then (k', v) :: rest else (k', v') :: assocSet k v rest

/-- The loop-local state of `handle_events`: the set of peers that have
signaled DONE (a Python `set`, modelled as a duplicate-free list), the
per-peer in-memory buffers, the last batch-flush clock reading, and the
durable store. -/
structure CoordState where
  completed : List JVal
  buffers : List (JVal × List EpochRec)
  lastBatch : ℤ
  store : Store
deriving DecidableEq, Repr

/-- `completed_peers.add(uid)`: set insertion. -/
def setAdd (uid : JVal) (s : List JVal) : List JVal :=
  if uid ∈ s then s else s ++ [uid]

/-- The ops of a batch flush: one `arrayFilters` push per non-empty buffer,
in buffer order (`handle_events` timer flush and final flush share this). -/
def flushOps (bufs : List (JVal × List EpochRec)) : List StoreOp :=
  bufs.filterMap fun (u, b) => if b = [] then none else some (.pushPeerResults u b)

/-- After a timer flush every buffer is empty (`peer_buffers[uid] = []` is
executed for each non-empty buffer). -/
def clearBufs (bufs : List (JVal × List EpochRec)) : List (JVal × List EpochRec) :=
  bufs.map fun (u, _) => (u, [])

/-- Control outcome of one loop iteration: fall through to the next tick,
`break` out of the loop, or abort with an uncaught exception. -/
inductive Ctl where
  | next
  | exit
  | err (msg : String)
deriving DecidableEq, Repr

/-- Result of one loop iteration: control outcome, resulting loop state, and
the store updates issued during the iteration (already applied to `state`). -/
structure TickOut where
  ctl : Ctl
  state : CoordState
  ops : List StoreOp
deriving DecidableEq, Repr

/-- A hexadecimal digit, either case. -/
def isHexChar (c : Char) : Bool :=
  ('0' ≤ c && c ≤ '9') || ('a' ≤ c && c ≤ 'f') || ('A' ≤ c && c ≤ 'F')

/-- The strings `bson.ObjectId` accepts: exactly 24 hexadecimal characters.
`ObjectId(peer_uid)` raises `InvalidId` on any other string. -/
def isHex24 (s : String) : Bool :=
  s.length = 24 && s.data.all isHexChar

/-- The body of `handle_events` from the `isinstance(event, dict)` check on:
dispatch of one truthy event.  `ts` abstracts `datetime.utcnow()`. -/
def eventStep (ts : Nat) (s : CoordState) (ev : JVal) : TickOut :=
  if ¬ ev.isObj then
    -- `print(raw event)`; continue
    ⟨.next, s, []⟩
  else if ¬ JVal.truthyO (ev.get "peer_uid") then
    -- `if not peer_uid: continue`
    ⟨.next, s, []⟩
  else
    let uid := (ev.get "peer_uid").getD .null
    if (ev.get "epoch").isSome then
      -- EPOCH heartbeat: build the record (KeyError on a missing field),
      -- append to the peer's buffer (KeyError on an unknown uid), then
      -- mirror-push to `results.<uid>`.
      match ev.get "loss" with
      | none => ⟨.err "KeyError: loss", s, []⟩
      | some l =>
        match ev.get "accuracy" with
        | none => ⟨.err "KeyError: accuracy", s, []⟩
        | some a =>
          let rec0 : EpochRec := ⟨(ev.get "epoch").getD .null, l, a, ts⟩
          match assocGet uid s.buffers with
          | none => ⟨.err "KeyError: peer_uid", s, []⟩
          | some b =>
            let ops : List StoreOp := [.mirrorPush uid rec0]
            ⟨.next,
             { s with buffers := assocSet uid (b ++ [rec0]) s.buffers,
                      store := s.store.applyOps ops }, ops⟩
    else if ev.get "status" = some (.str "idle") then
      -- IDLE heartbeat: log only
      ⟨.next, s, []⟩
    else if ev.get "type" = some (.str "DONE") ∧ ev.get "status" = some (.str "completed") then
      -- DONE: flush this peer's buffer (if non-empty), add to the completed
      -- set, mark the peer OFFLINE, then mark the user OFFLINE.  The user
      -- update evaluates `ObjectId(peer_uid)`, which raises `InvalidId`
      -- unless the uid is a 24-character hex string (and raises on any
      -- non-string uid); the raise happens after the flush, the set
      -- insertion and the peer-OFFLINE update have already executed.
      let batch := (assocGet uid s.buffers).getD []
      let flush : List StoreOp := if batch = [] then [] else [.pushPeerResults uid batch]
      let bufs := if batch = [] then s.buffers else assocSet uid [] s.buffers
      let completed := setAdd uid s.completed
      match uid with
      | .str su =>
        if isHex24 su then
          let ops := flush ++ [.setPeerOffline uid, .setUserOffline su]
          ⟨.next,
           { s with buffers := bufs, completed := completed,
                    store := s.store.applyOps ops }, ops⟩
        else
          let ops := flush ++ [.setPeerOffline uid]
          ⟨.err "bson InvalidId",
           { s with buffers := bufs, completed := completed,
                    store := s.store.applyOps ops }, ops⟩
      | _ =>
        let ops := flush ++ [.setPeerOffline uid]
        ⟨.err "bson InvalidId",
         { s with buffers := bufs, completed := completed,
                  store := s.store.applyOps ops }, ops⟩
    else
      -- unrecognized dict shape: fall through all branches; continue
      ⟨.next, s, []⟩

/-- One full iteration of the `while True` loop in `handle_events`: pull
result `pull` (`none` models the 0.5 s timeout), clock reading `now`, then
the batch-flush check, the exit-condition check on a falsy event, and the
event dispatch. -/
def coordTick (total : Nat) (now : ℤ) (ts : Nat) (pull : Option JVal) (s : CoordState) :
    TickOut :=
  let due := decide (now - s.lastBatch ≥ 1)
  let fops := if due then flushOps s.buffers else []
  let s1 :=
    if due then
      { s with buffers := clearBufs s.buffers, lastBatch := now,
               store := s.store.applyOps fops }
    else s
  if ¬ JVal.truthyO pull then
    -- `if not event:` — check exit condition even if no events
    if s1.completed.length = total then ⟨.exit, s1, fops⟩
    else ⟨.next, s1, fops⟩
  else
    let out := eventStep ts s1 ((pull.getD .null))
    ⟨out.ctl, out.state, fops ++ out.ops⟩

/-- Outcome of running the loop on a finite schedule of ticks. -/
structure RunOut where
  state : CoordState
  /-- the loop reached its `break` -/
  exited : Bool
  /-- the loop aborted with an uncaught exception -/
  errored : Bool
deriving DecidableEq, Repr

/-- Run the `handle_events` loop over a finite schedule; each schedule entry
supplies the clock reading, the record timestamp, and the pull result of one
iteration.  An exhausted schedule with no `break` leaves `exited = false`. -/
def runTicks (total : Nat) : List (ℤ × Nat × Option JVal) → CoordState → RunOut
  | [], s => ⟨s, false, false⟩
  | (now, ts, pull) :: rest, s =>
    let t := coordTick total now ts pull s
    match t.ctl with
    | .exit => ⟨t.state, true, false⟩
    | .err _ => ⟨t.state, false, true⟩
    | .next => runTicks total rest t.state

/-- The final flush after the loop exits: every non-empty buffer is pushed
once more.  The source iterates the buffers without clearing them. -/
def finalFlush (s : CoordState) : CoordState :=
  { s with store := s.store.applyOps (flushOps s.buffers) }

/-- The loop state at entry to `handle_events`: no peer completed, one empty
buffer per session peer, batch timer started at `t0`. -/
def initCoordState (peers : List PeerDoc) (t0 : ℤ) (st : Store) : CoordState :=
  ⟨[], peers.map fun p => (.str p.uid, []), t0, st⟩

/-!  ## The coordinator's validation and dispatch phase (`coordinator_main`)  -/

/-- A `peers` array element as read by `coordinator_main` (uid and command
queue name). -/
structure SessPeer where
  uid : String
  peerQueue : String
deriving DecidableEq, Repr

/-- The session document fields `coordinator_main` reads.  A field missing
from the stored document reads as the `session.get(..., [])` default, so
absent lists are modelled as empty lists. -/
structure SessionDoc where
  peers : List SessPeer
  hyperparameters : List JVal
  dataset : JVal
deriving Repr

/-- Python `str()` of a JSON value as used inside an f-string (only scalars
occur in the fields being rendered). -/
def pyStr : JVal → String
  | .str s => s
  | .null => "None"
  | .bool true => "True"
  | .bool false => "False"
  | .num q => toString q
  | _ => "<collection>"

/-- The elements of a JSON array value, for `for col in ...` iteration. -/
def arrToList : JVal → List JVal
  | .arrCons hd tl => hd :: arrToList tl
  | _ => []

/-- `f"s3://{dataset_info.get('s3_bucket')}/{dataset_info.get('s3_key')}"`. -/
def csvLinkOf (dataset : JVal) : String :=
  "s3://" ++ pyStr (dataset.getD "s3_bucket" .null) ++ "/" ++ pyStr (dataset.getD "s3_key" .null)

/-- `[col for col in dataset_info.get("columns", []) if col != "label"]`. -/
def xLabelsOf (dataset : JVal) : List JVal :=
  (arrToList (dataset.getD "columns" .arrNil)).filter fun c => c ≠ .str "label"

/-- The ENABLE command payload published to every peer. -/
def enablePayload (coordUid : String) : JVal :=
  .mkObj [("type", .str "ENABLE"),
          ("queue", .str ("coordinator." ++ coordUid ++ ".events")),
          ("coordinator_uid", .str coordUid)]

/-- The TRAIN command payload published to one peer. -/
def trainPayload (csvLink : String) (xLabels : List JVal) (h : JVal)
    (peerUid coordUid : String) : JVal :=
  .mkObj [("type", .str "TRAIN"),
          ("csv_link", .str csvLink),
          ("x_labels", .mkArr xLabels),
          ("y_label", .str "label"),
          ("hyperparameters", h),
          ("peer_uid", .str peerUid),
          ("coordinator_uid", .str coordUid)]

/-- The validation and command-dispatch phase of `coordinator_main`: load the
session, fail fast on a missing session, an empty peer list, or a
hyperparameter list shorter than the peer list, and otherwise produce, in
order, one ENABLE command per peer followed by one TRAIN command per peer
carrying the hyperparameters at that peer's index.  Each command is a
(queue name, payload) pair.  An `.error` result models the raised
`RuntimeError`: nothing has been published and no store write has occurred
(the first store writes happen later, inside `handle_events`). -/
def coordinatorDispatch (sessionQuery : Option SessionDoc) (coordUid : String) :
    Except String (List (String × JVal)) :=
  match sessionQuery with
  | none => .error "Session not found"
  | some sess =>
    if sess.peers = [] then .error "Session has no peers"
    else if sess.hyperparameters.length < sess.peers.length then
      .error "Not enough hyperparameter configs for peers"
    else
      let csvLink := csvLinkOf sess.dataset
      let xs := xLabelsOf sess.dataset
      let enables := sess.peers.map fun p => (p.peerQueue, enablePayload coordUid)
      let trains := sess.peers.enum.map fun (i, p) =>
        (p.peerQueue, trainPayload csvLink xs (sess.hyperparameters.getD i .null) p.uid coordUid)
      .ok (enables ++ trains)

/-- The commands actually published: none when validation raised. -/
def publishedOf (r : Except String (List (String × JVal))) : List (String × JVal) :=
  match r with
  | .error _ => []
  | .ok cmds => cmds

/-!  ## The coordinator's finalization phase (`coordinator_main`, after the loop)  -/

/-- `find_one` with an `$elemMatch` projection on `peers.uid`: the `results`
of the first session peer with the given uid, `[]` when none matches. -/
def elemMatchResults (st : Store) (uid : String) : List EpochRec :=
  match st.sessionPeers.find? (fun p => p.uid = uid) with
  | some p => p.results
  | none => []

/-- Python dict assignment `final_results[uid] = entry`: replace an existing
binding in place, else append. -/
def dictSet (k : String) (v : FinalEntry) : List (String × FinalEntry) → List (String × FinalEntry)
  | [] => [(k, v)]
  | (k', v') :: rest =>
    if k' = k then (k', v) :: rest else (k', v') :: dictSet k v rest

/-- `final_results` as assembled after the event loop: for each peer index,
the hyperparameters at that index paired with the peer's persisted result
sequence re-read from the store. -/
def buildFinalResults (peers : List SessPeer) (hypers : List JVal) (st : Store) :
    List (String × FinalEntry) :=
  peers.enum.foldl
    (fun acc ip => dictSet ip.2.uid ⟨hypers.getD ip.1 .null, elemMatchResults st ip.2.uid⟩ acc)
    []

/-- Whether a store update targets the session document (as opposed to the
`users` collection). -/
def StoreOp.touchesSession : StoreOp → Bool
  | .setUserOffline _ => false
  | _ => true

/-- The finalization phase: assemble `final_results`, then issue one session
update setting status/completed-at/coordinator/final-results together,
followed by the user-status update.  Returns the updated store and the ops
issued, in order. -/
def finalizePhase (peers : List SessPeer) (hypers : List JVal) (coordUid : String)
    (t : Nat) (st : Store) : Store × List StoreOp :=
  let fr := buildFinalResults peers hypers st
  let ops : List StoreOp := [.finalizeSession t coordUid fr, .setUserOffline coordUid]
  (st.applyOps ops, ops)

/-!  ## The peer worker (`peer_worker.py`)  -/

/-- The mutable `heartbeat_state` dict of the worker: whether heartbeats are
enabled, whether a target queue object is attached, and the last-sent clock
reading. -/
structure HBState where
  enabled : Bool
  queueSet : Bool
  lastSent : ℚ
deriving DecidableEq, Repr

/-- Environment oracle for one TRAIN execution: whether the S3 download
succeeds, whether the data-loading/training pipeline completes without an
exception (a failure is modelled as raising before the first epoch, e.g. in
`pd.read_csv`), whether `os.remove` succeeds, and the loss/accuracy the
training produces at each epoch. -/
structure TrainEnv where
  downloadOk : Bool
  trainOk : Bool
  removeOk : Bool
  lossOf : Nat → ℚ
  accOf : Nat → ℚ

/-- Observable outcome of `train_dnn`: whether it returned normally, the
event payloads it published to the heartbeat queue (EPOCH heartbeats and the
final DONE marker, in order), and whether the downloaded dataset file was
deleted. -/
structure TrainRun where
  ok : Bool
  sentEvents : List JVal
  fileDeleted : Bool
deriving DecidableEq, Repr

/-- Python `range(n)` bound for a JSON value (`int` and `bool` accepted;
anything else raises a `TypeError`, modelled as `none`). -/
def pyRangeBound : JVal → Option Nat
  | .num q => if q.den = 1 then some q.num.toNat else none
  | .bool b => some (if b then 1 else 0)
  | _ => none

/-- The EPOCH heartbeat payload `send_heartbeat` publishes while training is
active. -/
def epochPayload (uid : String) (epoch : Nat) (loss acc : ℚ) : JVal :=
  .mkObj [("peer_uid", .str uid), ("epoch", .num epoch),
          ("loss", .num loss), ("accuracy", .num acc)]

/-- The DONE marker payload `train_dnn` publishes after the last epoch. -/
def donePayload (uid : String) : JVal :=
  .mkObj [("peer_uid", .str uid), ("type", .str "DONE"), ("status", .str "completed")]

/-- `train_dnn`: run `epochs` training epochs, sending one EPOCH heartbeat
per completed epoch and one DONE marker at the end (heartbeats are only
published when heartbeats are enabled, a channel exists and a target queue
is attached — `send_heartbeat` returns silently otherwise), then delete the
downloaded dataset inside `try/except` (a deletion failure is logged,
non-fatal).  A pipeline exception (`ok = false`) propagates before the
cleanup, which is then never reached.  `batchSize` and `learningRate` shape
only the numeric training outcome, which the oracle supplies. -/
def trainDnn (sessionUid : String) (channelOk : Bool) (hb : HBState) (env : TrainEnv)
    (batchSize : JVal) (epochsV : JVal) (learningRate : JVal) : TrainRun :=
  if ¬ env.trainOk then ⟨false, [], false⟩
  else
    match pyRangeBound epochsV with
    | none => ⟨false, [], false⟩
    | some epochs =>
      let canSend := hb.enabled && channelOk && hb.queueSet
      let epochEvents := (List.range epochs).map fun e =>
        epochPayload sessionUid (e + 1) (env.lossOf e) (env.accOf e)
      let sent := if canSend then epochEvents ++ [donePayload sessionUid] else []
      ⟨true, sent, env.removeOk⟩

/-- `path.split("/", 1)` on a character list: split at the first slash. -/
def splitFirstSlash : List Char → Option (List Char × List Char)
  | [] => none
  | c :: rest =>
    if c = '/' then some ([], rest)
    else
      match splitFirstSlash rest with
      | some (b, k) => some (c :: b, k)
      | none => none

/-- `s3://bucket/key` parsing in `download_dataset_from_s3`: requires a
string starting with `s3://` whose remainder contains a `/` (the
`bucket_name, key = path.split("/", 1)` unpacking); raises otherwise. -/
def s3Parse (v : JVal) : Option (String × String) :=
  match v with
  | .str s =>
    if List.isPrefixOf "s3://".data s.data then
      match splitFirstSlash (s.data.drop 5) with
      | some (b, k) => some (⟨b⟩, ⟨k⟩)
      | none => none
    else none
  | _ => none

/-- A command message as seen by `handle_command`: whether the wire body is
the exact string `"STOP"`, and the result of `json.loads` on the body
(`none` when parsing raised).  A body produced by `json.dumps` of a dict
begins with `{`, so it is never the string `"STOP"` and parses back to the
dict. -/
structure CmdMsg where
  rawIsStop : Bool
  parsed : Option JVal

/-- The wire form of a command published by the coordinator's
`publish_command` on a dict payload. -/
def wireOf (v : JVal) : CmdMsg := ⟨false, some v⟩

/-- The hyperparameters `handle_command` passes to `train_dnn` for a TRAIN
command: the top-level `batch_size`, `epochs` and `learning_rate` fields of
the payload, defaulting to `64`, `10` and `0.001`. -/
def extractTrainParams (d : JVal) : JVal × JVal × JVal :=
  (d.getD "batch_size" (.num 64), d.getD "epochs" (.num 10),
   d.getD "learning_rate" (.num (mkRat 1 1000)))

/-- Observable outcome of `handle_command`: its return value (`False` tells
the worker loop to stop), the heartbeat state after the call, the training
run performed (if any), and whether an uncaught exception escaped the
handler (crashing the worker loop, which has no handler of its own). -/
structure HandleOut where
  running : Bool
  hb : HBState
  train : Option TrainRun
  errored : Bool
deriving DecidableEq, Repr

/-- `handle_command`: return `False` only on the exact wire body `"STOP"`;
otherwise parse the body, attach the heartbeat queue on ENABLE, run the
download-and-train sequence on TRAIN, and return `True` on everything else
(including unparseable bodies and unknown dict shapes). -/
def handleCommand (sessionUid : String) (channelOk : Bool) (hb : HBState)
    (env : TrainEnv) (msg : CmdMsg) : HandleOut :=
  if msg.rawIsStop then ⟨false, hb, none, false⟩
  else
    match msg.parsed with
    | some d =>
      if d.isObj then
        let cmdType := d.get "type"
        if cmdType = some (.str "ENABLE") then
          -- attach_heartbeat_queue returns None when the channel or the
          -- queue name is falsy
          let queueName := d.getD "queue" .null
          ⟨true, ⟨true, channelOk && queueName.truthy, 0⟩, none, false⟩
        else if cmdType = some (.str "TRAIN") then
          let (batchSize, epochs, learningRate) := extractTrainParams d
          match s3Parse (d.getD "csv_link" .null) with
          | none => ⟨true, hb, none, true⟩
          | some _ =>
            if ¬ env.downloadOk then ⟨true, hb, none, true⟩
            else
              let tr := trainDnn sessionUid channelOk hb env batchSize epochs learningRate
              ⟨true, hb, some tr, ¬ tr.ok⟩
        else ⟨true, hb, none, false⟩
      else ⟨true, hb, none, false⟩
    | none => ⟨true, hb, none, false⟩

/-!  ## Concrete fixtures used by witnesses and counterexamples  -/

/-- A training environment in which every effect succeeds. -/
def envOK : TrainEnv := ⟨true, true, true, fun _ => mkRat 1 2, fun _ => mkRat 3 4⟩

/-- A training environment in which the data-loading/training pipeline
raises (e.g. `pd.read_csv` fails) but everything else would succeed. -/
def envTrainFail : TrainEnv := ⟨true, false, true, fun _ => mkRat 1 2, fun _ => mkRat 3 4⟩

/-- A heartbeat state after a successful ENABLE. -/
def hbOn : HBState := ⟨true, true, 0⟩

/-- A one-peer session store, as it stands when `handle_events` starts. -/
def st1 : Store := ⟨[⟨"p1", "TRAINING", []⟩], [], [("p1", "TRAINING")], "RUNNING", none, none, []⟩

/-- The `handle_events` entry state for the one-peer session. -/
def s1 : CoordState := initCoordState [⟨"p1", "TRAINING", []⟩] 0 st1

/-- A two-peer session store, as it stands when `handle_events` starts. -/
def st2 : Store :=
  ⟨[⟨"p1", "TRAINING", []⟩, ⟨"p2", "TRAINING", []⟩], [],
   [("p1", "TRAINING"), ("p2", "TRAINING")], "RUNNING", none, none, []⟩


/-- A session peer uid in the form the application actually produces
(a stringified MongoDB ObjectId: 24 hex characters). -/
def uidA : String := "aaaaaaaaaaaaaaaaaaaaaa01"

/-- A second valid-ObjectId session peer uid. -/
def uidB : String := "aaaaaaaaaaaaaaaaaaaaaa02"

/-- A valid-ObjectId identifier that is not in any fixture session. -/
def uidX : String := "ffffffffffffffffffffffff"

/-- A one-peer session store keyed by a valid ObjectId uid. -/
def stA : Store := ⟨[⟨uidA, "TRAINING", []⟩], [], [(uidA, "TRAINING")], "RUNNING", none, none, []⟩

/-- The `handle_events` entry state for the `uidA` session. -/
def sA : CoordState := initCoordState [⟨uidA, "TRAINING", []⟩] 0 stA

/-- A two-peer session store keyed by valid ObjectId uids. -/
def stAB : Store :=
  ⟨[⟨uidA, "TRAINING", []⟩, ⟨uidB, "TRAINING", []⟩], [],
   [(uidA, "TRAINING"), (uidB, "TRAINING")], "RUNNING", none, none, []⟩

/-- The `handle_events` entry state for the `uidA`/`uidB` session. -/
def sAB : CoordState := initCoordState [⟨uidA, "TRAINING", []⟩, ⟨uidB, "TRAINING", []⟩] 0 stAB

/-- Hyperparameters assigned to the first fixture peer. -/
def hp0 : JVal :=
  .mkObj [("batch_size", .num 32), ("epochs", .num 5), ("learning_rate", .num (mkRat 1 100))]

/-- Hyperparameters assigned to the second fixture peer. -/
def hp1 : JVal :=
  .mkObj [("batch_size", .num 128), ("epochs", .num 20), ("learning_rate", .num (mkRat 1 10))]

/-- A two-peer session document with index-aligned hyperparameters and a
shared dataset reference. -/
def sessAB : SessionDoc :=
  ⟨[⟨"p1", "peer.p1.command"⟩, ⟨"p2", "peer.p2.command"⟩],
   [hp0, hp1],
   .mkObj [("s3_bucket", .str "bkt"), ("s3_key", .str "data.csv"),
           ("columns", .mkArr [.str "c1", .str "c2", .str "label"])]⟩

/-- A session document whose hyperparameter list is shorter than its peer
list. -/
def sessShort : SessionDoc := ⟨[⟨"p1", "q1"⟩, ⟨"p2", "q2"⟩], [hp0], .objNil⟩

/-- The TRAIN payload the coordinator publishes to the first fixture peer. -/
def trainCmdP1 : JVal :=
  trainPayload "s3://bkt/data.csv" [.str "c1", .str "c2"] hp0 "p1" "c0"

/-- The schedule of ticks for the C6 counterexample: the session's only
peer signals DONE first; an EPOCH report from it is then buffered; a
timeout tick lets the loop observe the full completed set and exit with
that buffer still unflushed. -/
def c6Ticks : List (ℤ × Nat × Option JVal) :=
  [(0, 0, some (donePayload uidA)),
   (0, 5, some (epochPayload uidA 1 (mkRat 1 2) (mkRat 3 4))),
   (0, 6, none)]

/-- The exit state reached by running `handle_events` over `c6Ticks`. -/
def c6Exit : CoordState := (runTicks 1 c6Ticks sA).state

/-- A progress record buffered for the C7 witness. -/
def recX : EpochRec := ⟨.num 1, .num (mkRat 1 2), .num (mkRat 3 4), 0⟩

/-- A loop state in which peer `uidA` has one unflushed buffered record. -/
def sBuf : CoordState := ⟨[], [(JVal.str uidA, [recX])], 0, stA⟩

/-- The schedule for the C10 termination scenario: a DONE from the
out-of-session identifier `uidX`, a DONE from session peer `uidA`, then a
timeout tick; session peer `uidB` never reports. -/
def c10Ticks : List (ℤ × Nat × Option JVal) :=
  [(0, 0, some (donePayload uidX)),
   (0, 1, some (donePayload uidA)), (0, 2, none)]

/-!  ## Claims  -/

/-- **C1.**  The coordinator does publish one TRAIN command per peer with
index-aligned hyperparameters and the shared dataset reference, but the
peer's TRAIN handler does not use the hyperparameters carried in the
command: `handle_command` reads top-level `batch_size`/`epochs`/
`learning_rate` keys, which the coordinator's payload does not have (it
nests them under `"hyperparameters"`), so every peer trains with the
defaults (64, 10, 0.001) — here 10 epochs instead of the carried 5. -/
theorem train_handler_ignores_carried_hyperparameters :
    publishedOf (coordinatorDispatch (some sessAB) "c0") =
      [("peer.p1.command", enablePayload "c0"), ("peer.p2.command", enablePayload "c0"),
       ("peer.p1.command", trainCmdP1),
       ("peer.p2.command", trainPayload "s3://bkt/data.csv" [.str "c1", .str "c2"] hp1 "p2" "c0")]
    ∧ trainCmdP1.get "hyperparameters" = some hp0
    ∧ trainCmdP1.get "csv_link" = some (.str "s3://bkt/data.csv")
    ∧ hp0.get "epochs" = some (.num 5)
    ∧ extractTrainParams trainCmdP1 = (.num 64, .num 10, .num (mkRat 1 1000))
    ∧ (handleCommand "p1" true hbOn envOK (wireOf trainCmdP1)).train
        = some ⟨true,
            ((List.range 10).map fun e => epochPayload "p1" (e + 1) (mkRat 1 2) (mkRat 3 4))
              ++ [donePayload "p1"], true⟩ := by
  refine ⟨by decide, by decide, by decide, by decide, by decide, by decide⟩

/-- **C2 (counterexample).**  The event loop does abort on some malformed
events: an EPOCH-shaped event whose `peer_uid` is not a key of the per-peer
buffers (not in the session's peer set) raises a `KeyError` at
`peer_buffers[peer_uid]`, and an EPOCH-shaped event lacking the `loss`
field raises a `KeyError` at `event["loss"]`; either uncaught exception
aborts the loop. -/
theorem malformed_epoch_event_aborts_loop :
    (runTicks 1 [(0, 0, some (epochPayload "intruder" 1 (mkRat 1 2) (mkRat 3 4)))] s1).errored = true
    ∧ (runTicks 1 [(0, 0, some (.mkObj [("peer_uid", .str "p1"), ("epoch", .num 1)]))] s1).errored
        = true := by
  refine ⟨by decide, by decide⟩

/-- **C3 (counterexample).**  The exit condition is not checked on every
loop tick: with the single session peer (a valid-ObjectId uid, so its DONE
is processed without error) already completed on the first tick, a second
tick delivering a truthy non-dict payload does not terminate the loop (the
code `continue`s without the exit check), so the run ends with the schedule
exhausted, no abort and no `break`, even though the completed set already
equals the full peer set. -/
theorem exit_condition_not_checked_on_event_ticks :
    (runTicks 1 [(0, 0, some (donePayload uidA)), (0, 1, some (.str "x"))] sA).exited = false
    ∧ (runTicks 1 [(0, 0, some (donePayload uidA)), (0, 1, some (.str "x"))] sA).errored = false
    ∧ (runTicks 1 [(0, 0, some (donePayload uidA)), (0, 1, some (.str "x"))] sA).state.completed.length
        = 1 := by
  refine ⟨by decide, by decide, by decide⟩

/-- **C4.**  The JSON command `{"type":"STOP"}` — the very payload the
coordinator publishes to stop its peers — does not terminate the peer
command loop: `handle_command` returns `False` only when the wire body is
the exact string `"STOP"`, and the parsed-dict branch has no STOP case, so
the handler returns `True` on the JSON form.  The plain string `"STOP"`
does terminate, and is the only terminating command. -/
theorem json_stop_command_does_not_terminate :
    (handleCommand "p1" true hbOn envOK (wireOf (.mkObj [("type", .str "STOP")]))).running = true
    ∧ (handleCommand "p1" true hbOn envOK ⟨true, none⟩).running = false
    ∧ ∀ (uid : String) (ch : Bool) (hb : HBState) (env : TrainEnv) (msg : CmdMsg),
        (handleCommand uid ch hb env msg).running = !msg.rawIsStop := by
  refine ⟨by decide, by decide, ?_⟩
  intro uid ch hb env msg
  rcases msg with ⟨rs, p⟩
  cases rs
  · show (handleCommand uid ch hb env ⟨false, p⟩).running = true
    unfold handleCommand
    cases p with
    | none => rfl
    | some d =>
      simp only [Bool.false_eq_true, if_false]
      split
      · split
        · rfl
        · split
          · split
            · rfl
            · split
              · rfl
              · rfl
          · rfl
      · rfl
  · rfl

/-- **C9 (counterexample).**  When the training pipeline raises (for
example `pd.read_csv` fails on the downloaded file), the cleanup code at
the end of `train_dnn` is never reached — there is no `try/finally` — so
the local dataset copy is **not** deleted on a training failure. -/
theorem failed_training_skips_dataset_cleanup :
    (trainDnn "p1" true hbOn envTrainFail (.num 64) (.num 10) (.num (mkRat 1 1000))).fileDeleted = false
    ∧ (trainDnn "p1" true hbOn envTrainFail (.num 64) (.num 10) (.num (mkRat 1 1000))).ok = false := by
  refine ⟨by decide, by decide⟩

/-- **C9 (amended).**  The dataset copy is deleted exactly when the
training pipeline completes without an exception and `os.remove` itself
succeeds; a failure of the deletion alone is caught (logged) and non-fatal,
so `train_dnn` still returns normally, while a training failure skips the
deletion altogether. -/
theorem dataset_cleanup_only_after_successful_training (uid : String) (ch : Bool)
    (hb : HBState) (env : TrainEnv) (bs ev lr : JVal) :
    (trainDnn uid ch hb env bs ev lr).fileDeleted
        = (env.trainOk && (pyRangeBound ev).isSome && env.removeOk)
    ∧ (trainDnn uid ch hb env bs ev lr).ok
        = (env.trainOk && (pyRangeBound ev).isSome) := by
  unfold trainDnn
  cases htr : env.trainOk
  · simp
  · cases hpr : pyRangeBound ev <;> simp [hpr]

/-- Events that fall through every branch of the dispatch — non-dicts,
dicts with a missing or falsy `peer_uid`, and unrecognized dict shapes —
leave the loop state untouched and issue no store update. -/
lemma eventStep_discard (ts : Nat) (s : CoordState) (ev : JVal)
    (h : ev.isObj = false
       ∨ JVal.truthyO (ev.get "peer_uid") = false
       ∨ ((ev.get "epoch").isSome = false ∧ ev.get "status" ≠ some (.str "idle")
            ∧ ¬(ev.get "type" = some (.str "DONE") ∧ ev.get "status" = some (.str "completed")))) :
    eventStep ts s ev = ⟨.next, s, []⟩ := by
  unfold eventStep
  rcases h with h | h | ⟨h1, h2, h3⟩
  · simp [h]
  · by_cases hobj : ev.isObj = true <;> simp [hobj, h]
  · by_cases hobj : ev.isObj = true
    · by_cases htru : JVal.truthyO (ev.get "peer_uid") = true
      · simp [hobj, htru, h1, h2, h3]
      · simp [hobj, htru]
    · simp [hobj]

/-- **C2 (amended).**  A truthy event that is not a dict, a dict whose
`peer_uid` is missing or falsy, or a dict of unrecognized shape, is logged
or discarded: the loop proceeds to the next tick and the completed-peer
set is unchanged.  (EPOCH-shaped events with an unknown `peer_uid` or
missing `loss`/`accuracy` are *not* covered: they abort the loop, see the
counterexample.) -/
theorem unrecognized_events_discarded (total : Nat) (now : ℤ) (ts : Nat) (s : CoordState)
    (ev : JVal) (htru : ev.truthy = true)
    (h : ev.isObj = false
       ∨ JVal.truthyO (ev.get "peer_uid") = false
       ∨ ((ev.get "epoch").isSome = false ∧ ev.get "status" ≠ some (.str "idle")
            ∧ ¬(ev.get "type" = some (.str "DONE") ∧ ev.get "status" = some (.str "completed")))) :
    (coordTick total now ts (some ev) s).ctl = .next
    ∧ (coordTick total now ts (some ev) s).state.completed = s.completed := by
  unfold coordTick
  simp only [JVal.truthyO, htru, not_true_eq_false, if_false, Option.getD_some]
  rw [eventStep_discard _ _ _ h]
  by_cases hdue : now - s.lastBatch ≥ 1 <;> simp [hdue]

/-- No branch of the event dispatch reaches the loop's `break`: the exit
condition is only ever checked in the falsy-pull branch. -/
lemma eventStep_ctl_ne_exit (ts : Nat) (s : CoordState) (ev : JVal) :
    (eventStep ts s ev).ctl ≠ .exit := by
  unfold eventStep
  dsimp only
  repeat' split
  all_goals exact fun hx => Ctl.noConfusion hx

/-- **C3 (amended).**  A loop tick `break`s exactly when the pull yielded
no event (timeout) or a falsy payload *and* the completed set already has
full cardinality: the exit condition is checked only on falsy pulls, so
after the last DONE the loop terminates on the next falsy pull rather than
the instant the set fills, and ticks that deliver truthy events never
terminate it. -/
theorem exit_checked_only_on_falsy_pull (total : Nat) (now : ℤ) (ts : Nat)
    (pull : Option JVal) (s : CoordState) :
    (coordTick total now ts pull s).ctl = .exit
      ↔ (JVal.truthyO pull = false ∧ s.completed.length = total) := by
  unfold coordTick
  by_cases htru : JVal.truthyO pull = true
  · simp only [htru, not_true_eq_false, if_false]
    simp [htru, eventStep_ctl_ne_exit]
  · simp only [eq_false_of_ne_true htru]
    by_cases hdue : now - s.lastBatch ≥ 1 <;>
      by_cases hlen : s.completed.length = total <;>
        simp [hdue, hlen, htru]


/-- **C6 (counterexample).**  The final flush does not clear the flushed
buffer, so it is not idempotent: at a loop exit state reachable with a
non-empty buffer (a peer's EPOCH arriving after its DONE), replaying the
final flush appends the buffered record a second time to the persisted
result sequence. -/
theorem final_flush_replay_duplicates_records :
    (runTicks 1 c6Ticks sA).exited = true
    ∧ (runTicks 1 c6Ticks sA).errored = false
    ∧ (finalFlush (finalFlush c6Exit)).store.sessionPeers
        ≠ (finalFlush c6Exit).store.sessionPeers := by
  refine ⟨by decide, by decide, by decide⟩

/-- A flush over all-empty buffers issues no store update. -/
lemma flushOps_eq_nil (l : List (JVal × List EpochRec))
    (h : ∀ kv ∈ l, kv.2 = ([] : List EpochRec)) : flushOps l = [] := by
  induction l with
  | nil => rfl
  | cons kv rest ih =>
    have hkv : kv.2 = [] := h kv (List.mem_cons_self kv rest)
    have hrest : ∀ x ∈ rest, x.2 = ([] : List EpochRec) := fun x hx =>
      h x (List.mem_cons_of_mem kv hx)
    simp only [flushOps, List.filterMap_cons, hkv, if_pos]
    exact ih hrest

/-- **C6 (amended).**  The timer and completion flushes do clear the
buffers they flush, but the final flush appends without clearing; replaying
the final flush is therefore a no-op on the persisted result sequences only
when every buffer is already empty at exit — in that case it changes
nothing at all, and a second application is also a no-op. -/
theorem final_flush_noop_on_empty_buffers (s : CoordState)
    (h : ∀ kv ∈ s.buffers, kv.2 = ([] : List EpochRec)) :
    finalFlush s = s ∧ finalFlush (finalFlush s) = finalFlush s := by
  have hff : finalFlush s = s := by
    unfold finalFlush
    rw [flushOps_eq_nil s.buffers h]
    rfl
  exact ⟨hff, by rw [hff]; exact hff⟩

/-- Witness for C6 (amended): at the loop entry state of the one-peer
session every buffer is empty, and the final flush is a no-op there. -/
theorem final_flush_noop_witness :
    finalFlush s1 = s1 ∧ finalFlush (finalFlush s1) = finalFlush s1 :=
  final_flush_noop_on_empty_buffers s1 (by decide)

/-- **C5.**  On a configuration fault — missing session document, empty
peer list, or a hyperparameter list shorter than the peer list —
`coordinator_main` raises before connecting to the message channel: the
error is surfaced to the caller and no ENABLE or TRAIN command is
published (the first store mutations happen later still, inside
`handle_events`, so no peer or session state is touched either). -/
theorem configuration_faults_fail_fast (sq : Option SessionDoc) (cu : String)
    (h : match sq with
         | none => True
         | some sess => sess.peers = [] ∨ sess.hyperparameters.length < sess.peers.length) :
    (∃ e, coordinatorDispatch sq cu = .error e)
    ∧ publishedOf (coordinatorDispatch sq cu) = [] := by
  cases sq with
  | none => exact ⟨⟨"Session not found", rfl⟩, rfl⟩
  | some sess =>
    by_cases hp : sess.peers = []
    · exact ⟨⟨"Session has no peers", by simp [coordinatorDispatch, hp]⟩,
             by simp [coordinatorDispatch, hp, publishedOf]⟩
    · have hlt : sess.hyperparameters.length < sess.peers.length := by
        rcases h with h | h
        · exact absurd h hp
        · exact h
      exact ⟨⟨"Not enough hyperparameter configs for peers",
              by simp [coordinatorDispatch, hp, hlt]⟩,
             by simp [coordinatorDispatch, hp, hlt, publishedOf]⟩

/-- Witness for C5: a session with two peers but a single hyperparameter
configuration fails fast with no command published. -/
theorem configuration_faults_witness :
    (∃ e, coordinatorDispatch (some sessShort) "c0" = .error e)
    ∧ publishedOf (coordinatorDispatch (some sessShort) "c0") = [] :=
  configuration_faults_fail_fast (some sessShort) "c0" (by decide)

/-- Every peer document surviving `setFirstOffline` keeps its uid and
results (only a `status` may change). -/
lemma setFirstOffline_mem (uid : JVal) (l : List PeerDoc) (p : PeerDoc)
    (hp : p ∈ setFirstOffline uid l) :
    ∃ q ∈ l, p.uid = q.uid ∧ p.results = q.results := by
  induction l with
  | nil => cases hp
  | cons q rest ih =>
    unfold setFirstOffline at hp
    by_cases hq : JVal.str q.uid = uid
    · rw [if_pos hq] at hp
      rcases List.mem_cons.mp hp with hp | hp
      · exact ⟨q, List.mem_cons_self q rest, by rw [hp]; exact ⟨rfl, rfl⟩⟩
      · exact ⟨p, List.mem_cons_of_mem q hp, rfl, rfl⟩
    · rw [if_neg hq] at hp
      rcases List.mem_cons.mp hp with hp | hp
      · exact ⟨q, List.mem_cons_self q rest, by rw [hp]; exact ⟨rfl, rfl⟩⟩
      · rcases ih hp with ⟨q', hq', h1, h2⟩
        exact ⟨q', List.mem_cons_of_mem q hq', h1, h2⟩

/-- After the completion-flush push, every session peer document with the
flushed uid contains the whole batch. -/
lemma push_mem_batch (su : String) (batch : List EpochRec) (l : List PeerDoc)
    (p : PeerDoc)
    (hp : p ∈ l.map fun q =>
      if JVal.str q.uid = JVal.str su then { q with results := q.results ++ batch } else q)
    (huid : p.uid = su) : ∀ r ∈ batch, r ∈ p.results := by
  intro r hr
  rcases List.mem_map.mp hp with ⟨q, _, hq⟩
  by_cases hqs : JVal.str q.uid = JVal.str su
  · rw [if_pos hqs] at hq
    rw [← hq]
    exact List.mem_append_right _ hr
  · rw [if_neg hqs] at hq
    rw [← hq] at huid
    exact absurd (by rw [huid]) hqs

/-- **C7.**  When a DONE event arrives for a peer whose in-memory buffer is
non-empty — the peer uid being a 24-hex ObjectId string, the only form the
application produces, so `ObjectId(peer_uid)` does not raise — the event
dispatch issues the buffer's push to the peer's persisted result sequence
*before* the op marking the peer OFFLINE (the ops list is exactly
flush-then-offline-then-user-offline), the loop continues, and afterwards
every buffered record is present in the persisted results of every session
peer document with that uid — no buffered record is lost. -/
theorem done_flushes_buffer_before_offline (ts : Nat) (s : CoordState) (su : String)
    (batch : List EpochRec) (hhex : isHex24 su = true)
    (hb : assocGet (JVal.str su) s.buffers = some batch) (hne : batch ≠ []) :
    (eventStep ts s (donePayload su)).ops
      = [.pushPeerResults (.str su) batch, .setPeerOffline (.str su), .setUserOffline su]
    ∧ (eventStep ts s (donePayload su)).ctl = .next
    ∧ ∀ p ∈ (eventStep ts s (donePayload su)).state.store.sessionPeers,
        p.uid = su → ∀ r ∈ batch, r ∈ p.results := by
  have hstep : eventStep ts s (donePayload su) =
      ⟨.next,
       { s with buffers := assocSet (.str su) [] s.buffers,
                completed := setAdd (.str su) s.completed,
                store := s.store.applyOps
                  [.pushPeerResults (.str su) batch, .setPeerOffline (.str su),
                   .setUserOffline su] },
       [.pushPeerResults (.str su) batch, .setPeerOffline (.str su), .setUserOffline su]⟩ := by
    have hsu : su ≠ "" := fun he => absurd (he ▸ hhex) (by decide)
    unfold eventStep
    simp [donePayload, JVal.mkObj, JVal.get, JVal.isObj, JVal.truthyO, JVal.truthy, hsu, hhex,
          hb, hne]
  refine ⟨by rw [hstep], by rw [hstep], ?_⟩
  rw [hstep]
  intro p hp huid
  simp only [Store.applyOps, List.foldl_cons, List.foldl_nil, Store.applyOp] at hp
  rcases setFirstOffline_mem _ _ _ hp with ⟨q, hq, h1, h2⟩
  intro r hr
  rw [h2]
  exact push_mem_batch su batch s.store.sessionPeers q hq (h1 ▸ huid) r hr


/-- Witness for C7: with `uidA`'s buffer holding one record, its DONE event
issues the flush push before the OFFLINE mark. -/
theorem done_flushes_buffer_witness :
    (eventStep 0 sBuf (donePayload uidA)).ops
      = [.pushPeerResults (.str uidA) [recX], .setPeerOffline (.str uidA),
         .setUserOffline uidA] :=
  (done_flushes_buffer_before_offline 0 sBuf uidA [recX] (by decide) (by decide)
    (by decide)).1


/-- **C10.**  The completion count is the size of a set of distinct
`peer_uid` values from DONE events: (a) a DONE from a peer already in the
set never changes the count, whether or not its uid is a valid ObjectId
string; (b) a DONE whose valid-ObjectId uid is outside the session's peer
set still counts, so with peers `{uidA, uidB}` the loop exits after DONE
events from the out-of-session `uidX` and `uidA` alone, `uidB` never
having signaled. -/
theorem done_count_set_semantics :
    (∀ (ts : Nat) (s : CoordState) (su : String), su ≠ "" → JVal.str su ∈ s.completed →
        (eventStep ts s (donePayload su)).state.completed.length = s.completed.length)
    ∧ (runTicks 2 c10Ticks sAB).exited = true
    ∧ JVal.str uidB ∉ (runTicks 2 c10Ticks sAB).state.completed
    ∧ JVal.str uidX ∈ (runTicks 2 c10Ticks sAB).state.completed := by
  refine ⟨?_, by decide, by decide, by decide⟩
  intro ts s su hsu hmem
  unfold eventStep
  by_cases hh : isHex24 su = true <;>
    simp [donePayload, JVal.mkObj, JVal.get, JVal.isObj, JVal.truthyO, JVal.truthy, hsu, hh,
          setAdd, hmem]

/-- Witness for C10's universal part: a repeated DONE from `uidA` leaves
the one-element completed set at size one. -/
theorem done_count_witness :
    (eventStep 0 (⟨[JVal.str uidA], [(JVal.str uidA, [])], 0, stA⟩ : CoordState)
        (donePayload uidA)).state.completed.length
      = (⟨[JVal.str uidA], [(JVal.str uidA, [])], 0, stA⟩ : CoordState).completed.length :=
  done_count_set_semantics.1 0 ⟨[JVal.str uidA], [(JVal.str uidA, [])], 0, stA⟩ uidA
    (by decide) (by decide)

/-- Witness for C2 (amended): a truthy non-dict event is discarded with the
completed set unchanged. -/
theorem unrecognized_events_witness :
    (coordTick 1 0 0 (some (.str "x")) s1).ctl = .next
    ∧ (coordTick 1 0 0 (some (.str "x")) s1).state.completed = s1.completed :=
  unrecognized_events_discarded 1 0 0 s1 (.str "x") (by decide) (Or.inl (by decide))

/-- Association lookup distributes over append: the left list wins. -/
lemma assocGet_append {α β : Type} [DecidableEq α] (k : α) (l1 l2 : List (α × β)) :
    assocGet k (l1 ++ l2)
      = match assocGet k l1 with
        | some v => some v
        | none => assocGet k l2 := by
  induction l1 with
  | nil => rfl
  | cons kv rest ih =>
    by_cases hk : kv.1 = k
    · simp [assocGet, hk]
    · simpa [assocGet, hk] using ih

/-- Assigning a fresh key to a Python dict appends the binding. -/
lemma dictSet_not_mem (k : String) (v : FinalEntry) (l : List (String × FinalEntry))
    (h : assocGet k l = none) : dictSet k v l = l ++ [(k, v)] := by
  induction l with
  | nil => rfl
  | cons kv rest ih =>
    by_cases hk : kv.1 = k
    · rw [show kv = (kv.1, kv.2) from rfl, assocGet] at h
      simp [hk] at h
    · have hrest : assocGet k rest = none := by
        rw [show kv = (kv.1, kv.2) from rfl, assocGet] at h
        simpa [hk] using h
      rw [show kv = (kv.1, kv.2) from rfl, dictSet]
      simp [hk, ih hrest]

/-- Folding dict assignments over pairwise-fresh keys appends one binding
per element, in order. -/
lemma foldl_dictSet (F : Nat → SessPeer → FinalEntry) :
    ∀ (ps : List (Nat × SessPeer)) (acc : List (String × FinalEntry)),
      (∀ ip ∈ ps, assocGet ip.2.uid acc = none) →
      (ps.map fun ip => ip.2.uid).Nodup →
      ps.foldl (fun acc ip => dictSet ip.2.uid (F ip.1 ip.2) acc) acc
        = acc ++ ps.map fun ip => (ip.2.uid, F ip.1 ip.2) := by
  intro ps
  induction ps with
  | nil => intro acc _ _; simp
  | cons ip rest ih =>
    intro acc hfresh hnd
    have hip : assocGet ip.2.uid acc = none := hfresh ip (List.mem_cons_self ip rest)
    have hnd2 : (ip.2.uid :: rest.map fun x => x.2.uid).Nodup := by
      rw [List.map_cons] at hnd; exact hnd
    have hnd' := List.nodup_cons.mp hnd2
    have hfresh' : ∀ jp ∈ rest, assocGet jp.2.uid (acc ++ [(ip.2.uid, F ip.1 ip.2)]) = none := by
      intro jp hjp
      rw [assocGet_append]
      have h1 : assocGet jp.2.uid acc = none := hfresh jp (List.mem_cons_of_mem ip hjp)
      have h2 : ip.2.uid ≠ jp.2.uid := by
        intro he
        exact hnd'.1 (he ▸ List.mem_map_of_mem (fun x => x.2.uid) hjp)
      simp [h1, assocGet, h2]
    calc (ip :: rest).foldl (fun acc ip => dictSet ip.2.uid (F ip.1 ip.2) acc) acc
        = rest.foldl (fun acc ip => dictSet ip.2.uid (F ip.1 ip.2) acc)
            (dictSet ip.2.uid (F ip.1 ip.2) acc) := rfl
      _ = rest.foldl (fun acc ip => dictSet ip.2.uid (F ip.1 ip.2) acc)
            (acc ++ [(ip.2.uid, F ip.1 ip.2)]) := by rw [dictSet_not_mem _ _ _ hip]
      _ = (acc ++ [(ip.2.uid, F ip.1 ip.2)]) ++ rest.map fun ip => (ip.2.uid, F ip.1 ip.2) :=
            ih _ hfresh' hnd'.2
      _ = acc ++ (ip :: rest).map fun ip => (ip.2.uid, F ip.1 ip.2) := by simp

/-- The uids enumerated with indices are the peer uids. -/
lemma enum_uid_map (peers : List SessPeer) :
    (peers.enum.map fun ip => ip.2.uid) = peers.map SessPeer.uid := by
  rw [show (fun ip : Nat × SessPeer => ip.2.uid) = SessPeer.uid ∘ Prod.snd from rfl]
  rw [← List.map_map, List.enum_map_snd]

/-- With duplicate-free peer uids, `final_results` is one binding per peer,
in peer order. -/
lemma buildFinalResults_eq_map (peers : List SessPeer) (hypers : List JVal) (st : Store)
    (hnd : (peers.map SessPeer.uid).Nodup) :
    buildFinalResults peers hypers st
      = peers.enum.map fun ip =>
          (ip.2.uid, ⟨hypers.getD ip.1 .null, elemMatchResults st ip.2.uid⟩) := by
  unfold buildFinalResults
  rw [foldl_dictSet (fun i p => ⟨hypers.getD i .null, elemMatchResults st p.uid⟩)
        peers.enum [] (fun _ _ => rfl) (by rw [enum_uid_map]; exact hnd)]
  simp

/-- Looking up the uid of the `i`-th peer in the enumerated binding list
yields the entry built from index `n + i`. -/
lemma assocGet_enumFrom (F : Nat → SessPeer → FinalEntry) :
    ∀ (peers : List SessPeer) (n i : Nat) (hi : i < peers.length),
      (peers.map SessPeer.uid).Nodup →
      assocGet (peers.get ⟨i, hi⟩).uid
          ((peers.enumFrom n).map fun ip => (ip.2.uid, F ip.1 ip.2))
        = some (F (n + i) (peers.get ⟨i, hi⟩)) := by
  intro peers
  induction peers with
  | nil => intro n i hi; exact absurd hi (Nat.not_lt_zero i)
  | cons p rest ih =>
    intro n i hi hnd
    have hnd2 : (p.uid :: rest.map SessPeer.uid).Nodup := by
      rw [List.map_cons] at hnd; exact hnd
    have hnd' := List.nodup_cons.mp hnd2
    cases i with
    | zero => simp [List.enumFrom, assocGet]
    | succ j =>
      have hj : j < rest.length := Nat.lt_of_succ_lt_succ hi
      have hkey : (rest.get ⟨j, hj⟩).uid ∈ rest.map SessPeer.uid :=
        List.mem_map_of_mem SessPeer.uid (List.get_mem rest j hj)
      have hne : p.uid ≠ (rest.get ⟨j, hj⟩).uid := fun he => hnd'.1 (he ▸ hkey)
      have harith : n + 1 + j = n + (j + 1) := by omega
      calc assocGet ((p :: rest).get ⟨j + 1, hi⟩).uid
            (((p :: rest).enumFrom n).map fun ip => (ip.2.uid, F ip.1 ip.2))
          = assocGet (rest.get ⟨j, hj⟩).uid
              ((p.uid, F n p) :: (rest.enumFrom (n + 1)).map fun ip => (ip.2.uid, F ip.1 ip.2)) :=
            rfl
        _ = assocGet (rest.get ⟨j, hj⟩).uid
              ((rest.enumFrom (n + 1)).map fun ip => (ip.2.uid, F ip.1 ip.2)) := by
            simp only [assocGet]
            rw [if_neg hne]
        _ = some (F (n + 1 + j) (rest.get ⟨j, hj⟩)) := ih (n + 1) j hj hnd'.2
        _ = some (F (n + (j + 1)) ((p :: rest).get ⟨j + 1, hi⟩)) := by rw [harith]; rfl

/-- **C8.**  At completion, with duplicate-free peer uids and enough
hyperparameter configurations (as the dispatch phase validated),
`final_results` has exactly one entry per peer; the entry of the `i`-th
peer pairs the hyperparameters at index `i` with that peer's persisted
result sequence as re-read from the store; and the only session-document
update of the finalization phase is the single op that sets the COMPLETED
status, the completion timestamp and `final_results` together. -/
theorem final_results_one_entry_per_peer (peers : List SessPeer) (hypers : List JVal)
    (cu : String) (t : Nat) (st : Store)
    (hnd : (peers.map SessPeer.uid).Nodup) (hlen : peers.length ≤ hypers.length) :
    (buildFinalResults peers hypers st).length = peers.length
    ∧ (∀ i (hi : i < peers.length),
        assocGet (peers.get ⟨i, hi⟩).uid (buildFinalResults peers hypers st)
          = some ⟨hypers.get ⟨i, Nat.lt_of_lt_of_le hi hlen⟩,
                  elemMatchResults st (peers.get ⟨i, hi⟩).uid⟩)
    ∧ ((finalizePhase peers hypers cu t st).2).filter StoreOp.touchesSession
        = [.finalizeSession t cu (buildFinalResults peers hypers st)]
    ∧ (finalizePhase peers hypers cu t st).1.sessionStatus = "COMPLETED"
    ∧ (finalizePhase peers hypers cu t st).1.completedAt = some t
    ∧ (finalizePhase peers hypers cu t st).1.finalResults
        = buildFinalResults peers hypers st := by
  have hmap := buildFinalResults_eq_map peers hypers st hnd
  refine ⟨?_, ?_, ?_, rfl, rfl, rfl⟩
  · rw [hmap, List.length_map, List.enum_length]
  · intro i hi
    rw [hmap, show peers.enum = peers.enumFrom 0 from rfl]
    rw [assocGet_enumFrom (fun n p => ⟨hypers.getD n .null, elemMatchResults st p.uid⟩)
          peers 0 i hi hnd]
    rw [Nat.zero_add, List.getD_eq_get hypers JVal.null (Nat.lt_of_lt_of_le hi hlen)]
  · rfl

/-- Witness for C8: the two-peer fixture session yields one
`final_results` entry per peer. -/
theorem final_results_witness :
    (buildFinalResults sessAB.peers [hp0, hp1] st2).length = sessAB.peers.length :=
  (final_results_one_entry_per_peer sessAB.peers [hp0, hp1] "c0" 7 st2
    (by decide) (by decide)).1
